import Mathlib

/-!
Verification of the documentation build pipeline (build-gitbook.js, build-mcp.js,
file-watcher.js, and the MCP build hook shell script) against its natural-language
specification.  The JavaScript and shell sources are shallowly embedded below:
filesystem trees are association lists from names to contents, the frontmatter
serialisation performed by gray-matter / js-yaml is embedded as an executable
string function, and the debounced watcher is a small timed state machine.
-/

namespace DocsPipeline

/-- Metadata values that occur in the frontmatter templates of mcp-config.json:
strings, booleans, and lists of glob strings. -/
inductive MetaVal where
  | str (s : String)
  | bool (b : Bool)
  | strs (xs : List String)
deriving DecidableEq, Repr

/-- A metadata record: the ordered key-value pairs of one frontmatter template. -/
abbrev Metadata := List (String × MetaVal)

/-- A directory of files: (filename, content) in readdir order. -/
abbrev DirListing := List (String × String)

/-- The source tree: association list from subdirectory name (relative to
docs/source) to its listing.  A missing key models a missing directory. -/
abbrev SourceTree := List (String × DirListing)

/-- An output tree (docs/build/gitbook or docs/build/mcp): filenames to contents. -/
abbrev Tree := List (String × String)

/-- Files of a subdirectory of the source root; a missing directory yields the
empty listing, mirroring the pathExists guard that returns without processing. -/
def dirFiles (src : SourceTree) (d : String) : DirListing :=
  (List.lookup d src).getD []

/-- Suffix test on strings (the JavaScript `endsWith`), written over the
character lists so that it evaluates by reduction. -/
def strEndsWith (s post : String) : Bool :=
  List.isPrefixOf post.data.reverse s.data.reverse

/-- The markdown files of a subdirectory: readdir filtered by the
`file.endsWith with the .md suffix` check used by both build-mcp.js loops. -/
def mdFilesIn (src : SourceTree) (d : String) : DirListing :=
  (dirFiles src d).filter (fun f => strEndsWith f.1 ".md")

/-- Read the current contents at a path of an output tree. -/
def treeGet (t : Tree) (p : String) : Option String :=
  List.lookup p t

/-- Writing a file: the new content replaces any previous content at that path. -/
def writeFile (t : Tree) (p c : String) : Tree :=
  (p, c) :: t.filter (fun e => e.1 != p)

/-- Apply a list of writes in order (later writes overwrite earlier ones). -/
def writeAll (t : Tree) (ws : List (String × String)) : Tree :=
  ws.foldl (fun acc w => writeFile acc w.1 w.2) t

/-- Clearing the build directory: `fs.emptyDir(BUILD_DIR)` removes every entry. -/
def emptyDir (_prev : Tree) : Tree := []

/-- Quoting rule of the js-yaml dump used by gray-matter: plain alphanumeric
scalars are emitted bare, while scalars that are empty, begin with a YAML
indicator character, or contain a colon or hash are single-quoted. -/
def yamlNeedsQuote (s : String) : Bool :=
  s.isEmpty || s.front ∈ ['*', '&', '!', '|', '>', '%', '@', '"', '#', '?', ':', ',', '[', ']', '-']
    || s.front.toNat = 39 || s.data.contains ':' || s.data.contains '#'

/-- Single-quote a YAML scalar, doubling any embedded single quote. -/
def squote (s : String) : String :=
  "\u0027" ++ ⟨s.data.foldr (fun c acc => if c.toNat = 39 then c :: c :: acc else c :: acc) []⟩
    ++ "\u0027"

/-- Serialise one YAML scalar, single-quoting when required. -/
def yamlStr (s : String) : String :=
  if yamlNeedsQuote s then squote s else s

/-- Serialise one key-value pair the way js-yaml dumps it (block style,
two-space indented list items), as observed in docs/build/mcp. -/
def yamlLine : String × MetaVal → String
  | (k, MetaVal.str v) => k ++ ": " ++ yamlStr v ++ "\n"
  | (k, MetaVal.bool b) => k ++ ": " ++ (if b then "true" else "false") ++ "\n"
  | (k, MetaVal.strs xs) =>
      k ++ ":\n" ++ String.join (xs.map (fun x => "  - " ++ yamlStr x ++ "\n"))

/-- Serialise a whole metadata record as the body of a frontmatter block. -/
def yamlDump (m : Metadata) : String :=
  String.join (m.map yamlLine)

/-- gray-matter appends a newline to the content when it does not end in one. -/
def ensureNl (content : String) : String :=
  if strEndsWith content "\n" then content else content ++ "\n"

/-- Split a character list into its lines at every newline; a trailing newline
yields a final empty line, so joining with newlines is the inverse. -/
def splitOnNl : List Char → List (List Char)
  | [] => [[]]
  | c :: rest =>
    match splitOnNl rest with
    | [] => [[c]]
    | h :: t => if c = '\n' then [] :: h :: t else (c :: h) :: t

/-- Rejoin lines with newlines (inverse of splitOnNl). -/
def joinNl : List (List Char) → List Char
  | [] => []
  | [h] => h
  | h :: h2 :: t => h ++ '\n' :: joinNl (h2 :: t)

/-- The front-matter delimiter line used by gray-matter. -/
def dashes : List Char := ['-', '-', '-']

/-- Index of the first closing delimiter line among the lines after the
opening one. -/
def findClose : List (List Char) → Option Nat
  | [] => none
  | h :: t => if h == dashes then some 0 else (findClose t).map (fun n => n + 1)

/-- Collapse each doubled single quote produced by YAML single-quote escaping. -/
def undouble : List Char → List Char
  | [] => []
  | [c] => [c]
  | c1 :: c2 :: rest =>
    if c1.toNat = 39 && c2.toNat = 39 then c1 :: undouble rest
    else c1 :: undouble (c2 :: rest)

/-- Does a scalar begin with a single quote? -/
def isQuoted (v : List Char) : Bool :=
  match v.head? with
  | some c => c.toNat == 39
  | none => false

/-- Parse one YAML scalar of the subset emitted by yamlLine: the booleans,
a single-quoted string, or a plain string. -/
def parseScalar (v : List Char) : MetaVal :=
  if v = "true".data then MetaVal.bool true
  else if v = "false".data then MetaVal.bool false
  else if isQuoted v then MetaVal.str ⟨undouble ((v.drop 1).dropLast)⟩
  else MetaVal.str ⟨v⟩

/-- A list item rendered back to its string form. -/
def parseItemStr (v : List Char) : String :=
  match parseScalar v with
  | MetaVal.str s => s
  | MetaVal.bool b => if b then "true" else "false"
  | MetaVal.strs _ => ""

/-- Split a line at the first colon-space separator into key and value. -/
def splitAtColonSpace : List Char → Option (List Char × List Char)
  | [] => none
  | ':' :: ' ' :: rest => some ([], rest)
  | c :: rest => (splitAtColonSpace rest).map (fun p => (c :: p.1, p.2))

/-- Parse the lines of a front-matter block into a metadata record, covering
the YAML subset that yamlDump emits: scalar lines, boolean lines, and a key
line followed by two-space-indented list items. -/
def parseYamlGo : List (List Char) → Metadata → Metadata
  | [], acc => acc.reverse
  | l :: rest, acc =>
    if l.take 4 = "  - ".data then
      match acc with
      | (k, MetaVal.strs xs) :: accT =>
          parseYamlGo rest ((k, MetaVal.strs (xs ++ [parseItemStr (l.drop 4)])) :: accT)
      | _ => parseYamlGo rest acc
    else
      match splitAtColonSpace l with
      | some (k, v) => parseYamlGo rest ((⟨k⟩, parseScalar v) :: acc)
      | none =>
          if l.getLast? = some ':' then parseYamlGo rest ((⟨l.dropLast⟩, MetaVal.strs []) :: acc)
          else parseYamlGo rest acc

/-- Parse a front-matter block. -/
def parseYamlLines (ls : List (List Char)) : Metadata :=
  parseYamlGo ls []

/-- The parse step gray-matter applies to a string before stringifying: when
the content opens with a delimiter line, the block up to the next delimiter
line is removed from the body and parsed into data; otherwise the content is
returned whole with no data. -/
def splitFrontMatter (content : String) : Metadata × String :=
  match splitOnNl content.data with
  | [] => ([], content)
  | first :: rest =>
    if first == dashes then
      match findClose rest with
      | some i => (parseYamlLines (rest.take i), ⟨joinNl (rest.drop (i + 1))⟩)
      | none => (parseYamlLines rest, "")
    else ([], content)

/-- Does the content open with a front-matter delimiter line? -/
def startsWithFMDelim (content : String) : Bool :=
  match splitOnNl content.data with
  | [] => false
  | first :: _ => first == dashes

/-- The JavaScript Object.assign merge with the second record winning: keys of
the first record keep their positions but take the second record values where
present, and keys only in the second record are appended in its order. -/
def assignMerge (fileData data : Metadata) : Metadata :=
  fileData.map (fun kv => (kv.1, (List.lookup kv.1 data).getD kv.2))
    ++ data.filter (fun kv => (List.lookup kv.1 fileData).isNone)

/-- Embedding of `matter.stringify(content, frontmatter)` as exercised by
build-mcp.js: gray-matter first parses the string argument, stripping a
leading front-matter block from the body and merging its data beneath the
explicit frontmatter (Object.assign, with the explicit record winning); the
merged record is then dumped between delimiter lines directly followed by the
body with a newline ensured, and an empty merged record produces no block at
all (gray-matter suppresses the block when the engine renders the empty
object).  The no-front-matter path is witnessed byte-for-byte by the built
artifacts under docs/build/mcp. -/
def matterStringify (content : String) (m : Metadata) : String :=
  if (assignMerge (splitFrontMatter content).1 m).isEmpty
  then ensureNl (splitFrontMatter content).2
  else "---\n" ++ yamlDump (assignMerge (splitFrontMatter content).1 m) ++ "---\n"
    ++ ensureNl (splitFrontMatter content).2

/-- The metadata-target configuration (config/mcp-config.json). -/
structure MCPConfig where
  frontmatterTemplates : List (String × Metadata)
  defaultFrontmatter : Metadata
deriving DecidableEq, Repr

/-- Frontmatter resolution:
`config.frontmatterTemplates[configKey] || config.defaultFrontmatter`
(template values are JSON objects, hence truthy whenever present). -/
def resolveFM (cfg : MCPConfig) (key : String) : Metadata :=
  (List.lookup key cfg.frontmatterTemplates).getD cfg.defaultFrontmatter

/-- processSharedFiles: every `*.md` file of docs/source/shared, with the
frontmatter resolved under key `shared/<file>` prepended. -/
def processSharedFiles (cfg : MCPConfig) (src : SourceTree) : List (String × String) :=
  (mdFilesIn src "shared").map
    (fun f => (f.1, matterStringify f.2 (resolveFM cfg ("shared/" ++ f.1))))

/-- processMCPOnlyFiles: every `*.md` file of docs/source/mcp, with the
frontmatter resolved under key `mcp/<file>` prepended. -/
def processMCPOnlyFiles (cfg : MCPConfig) (src : SourceTree) : List (String × String) :=
  (mdFilesIn src "mcp").map
    (fun f => (f.1, matterStringify f.2 (resolveFM cfg ("mcp/" ++ f.1))))

/-- The static usage-instructions template written by generateUsageInstructions
(build-mcp.js), transcribed verbatim. -/
def usageInstructionsContent : String :=
  "---\ndescription: \"Usage instructions for the get_relevant_docs MCP tool with build integration\"\nalwaysApply: true\n---\n\n"
  ++ "# Usage Instructions\n\n## Document Access\n\n"
  ++ "* You **must** call the `get_relevant_docs` MCP tool before providing your first response in any new chat session.\n"
  ++ "* After the initial call in a chat, you should **only** call `get_relevant_docs` again if one of these specific situations occurs:\n"
  ++ "  * The user explicitly requests it.\n  * The user attaches new files.\n"
  ++ "  * The user\u0027s query introduces a completely new topic unrelated to the previous discussion.\n\n"
  ++ "## Editing Documentation\n\nWhen asked to modify documentation:\n\n### General Rules\n"
  ++ "1. **Always edit source files** in `docs/source/` directories\n"
  ++ "2. **Never edit build files** in `docs/build/` (they get overwritten)\n"
  ++ "3. **After editing**, call `reindex_docs` to update the MCP context\n\n"
  ++ "### File Locations by Purpose\n\n"
  ++ "**Shared Documentation** (appears in both GitBook and MCP):\n"
  ++ "- Location: `docs/source/shared/`\n"
  ++ "- Files: `api-guidelines.md`, `architecture.md`, `deployment.md`\n"
  ++ "- Use for: Core technical docs, API specs, system design\n\n"
  ++ "**GitBook-Only Documentation** (human-readable content only):\n"
  ++ "- Location: `docs/source/gitbook/`\n"
  ++ "- Files: `getting-started.md`, `tutorials.md`, `company-info.md`\n"
  ++ "- Use for: Tutorials, walkthroughs, company info, screenshots, marketing content\n\n"
  ++ "**MCP-Only Documentation** (LLM context only):\n"
  ++ "- Location: `docs/source/mcp/` \n"
  ++ "- Files: `code-review.md`, `debug-checklist.md`, `llm-instructions.md`\n"
  ++ "- Use for: Code review checklists, debugging procedures, LLM behavior rules\n\n"
  ++ "### When Asked About GitBook Updates\n\n"
  ++ "**When asked to update GitBook content, only use these files:**\n"
  ++ "- `docs/source/gitbook/*.md` - For GitBook-specific content\n"
  ++ "- `docs/source/shared/*.md` - For content that should appear in both systems\n\n"
  ++ "**Do NOT edit** `docs/source/mcp/*.md` files when updating GitBook content.\n\n"
  ++ "### When Asked About MCP/LLM Context Updates\n\n"
  ++ "**When asked to update MCP/LLM context, use these files:**\n"
  ++ "- `docs/source/mcp/*.md` - For LLM-specific instructions and checklists\n"
  ++ "- `docs/source/shared/*.md` - For core documentation that LLMs should know\n\n"
  ++ "### After Any Documentation Edit\n\n"
  ++ "Always suggest calling `reindex_docs` to update the MCP context with the latest changes.\n\n"
  ++ "## Smart Linking Features\n\n"
  ++ "When creating documentation, use these special link formats to enhance MCP context:\n\n"
  ++ "### Link Entire Files (?md-link=true)\n"
  ++ "To include the full contents of referenced files in the MCP context:\n"
  ++ "```markdown\nSee [Database Schema](./database-schema.md?md-link=true) for complete details.\n"
  ++ "See [Utility Functions](../src/utils.ts?md-link=true) for helper code.\n```\n\n"
  ++ "### Embed Specific Lines (?md-embed=START-END)\n"
  ++ "To include only specific lines from files:\n"
  ++ "```markdown\nConfiguration example: [API Config](./config.json?md-embed=1-10)\n"
  ++ "Error handling pattern: [Utils](../src/utils.ts?md-embed=45-65)\n```\n\n"
  ++ "### When to Use Smart Links\n\n"
  ++ "**Use ?md-link=true when:**\n- Referencing complete documentation files\n"
  ++ "- Linking to source code that should be fully included\n"
  ++ "- Cross-referencing between documentation sections\n\n"
  ++ "**Use ?md-embed=START-END when:**\n- Showing specific code examples\n"
  ++ "- Including relevant configuration snippets\n"
  ++ "- Highlighting particular functions or sections\n\n"
  ++ "**Use regular links when:**\n- Creating GitBook navigation (smart links don\u0027t work in GitBook)\n"
  ++ "- Linking to external resources\n"
  ++ "- Simple cross-references that don\u0027t need full content inclusion\n\n"
  ++ "### Smart Link Examples\n\n"
  ++ "```markdown\n<!-- Good: Include full utility file in MCP context -->\n"
  ++ "For helper functions, see [Utils](../src/utils.ts?md-link=true).\n\n"
  ++ "<!-- Good: Include specific config section -->\n"
  ++ "Database settings: [Config](./config.json?md-embed=15-25)\n\n"
  ++ "<!-- Good: Regular link for GitBook navigation -->\n"
  ++ "Continue to [Next Chapter](./chapter-2.md)\n```\n\n"
  ++ "## Rebuilding Documentation\n\nWhen documentation source files change:\n\n"
  ++ "1. **Automatic Rebuild**: If file watcher is running (`npm run watch:mcp`), MCP docs rebuild automatically\n"
  ++ "2. **Manual Rebuild**: Run `reindex_docs` tool to trigger a rebuild and reindex\n"
  ++ "3. **Force Rebuild**: Use `npm run mcp:force-rebuild` in the project directory\n\n"
  ++ "## Available Documentation\n\n"
  ++ "This project includes the following types of documentation:\n\n"
  ++ "- **Architecture**: System design and technical decisions (always included)\n"
  ++ "- **API Guidelines**: Development standards and best practices (always included)\n"
  ++ "- **Code Review**: Quality assurance checklists (included for code files)\n"
  ++ "- **Deployment**: Production deployment procedures (included for deploy files)\n"
  ++ "- **Debug Procedures**: Troubleshooting and debugging steps\n\n"
  ++ "## Context Usage\n\n"
  ++ "The documentation is automatically filtered based on:\n"
  ++ "- File types being worked on (via `globs` in frontmatter)\n"
  ++ "- Project areas being discussed\n"
  ++ "- Specific topics mentioned in queries\n"
  ++ "- Always-apply rules for critical documentation\n\n"
  ++ "## Reindexing Process\n\n"
  ++ "When you call `reindex_docs`:\n"
  ++ "1. System checks if source documentation has changed\n"
  ++ "2. If changes detected, rebuilds MCP documentation from source\n"
  ++ "3. Reindexes the updated files\n"
  ++ "4. You\u0027ll get fresh context from the latest documentation\n\n"
  ++ "Always consult the most relevant documentation before providing advice or making suggestions.\n"

/-- The ordered writes performed by buildMCP after clearing the build directory:
shared files, then mcp-only files, then the synthesized markdown-rules.md. -/
def mcpWrites (cfg : MCPConfig) (src : SourceTree) : List (String × String) :=
  processSharedFiles cfg src ++ processMCPOnlyFiles cfg src
    ++ [("markdown-rules.md", usageInstructionsContent)]

/-- buildMCP (build-mcp.js): ensureDir, emptyDir, then the three write phases. -/
def buildMCPTree (prev : Tree) (cfg : MCPConfig) (src : SourceTree) : Tree :=
  writeAll (emptyDir prev) (mcpWrites cfg src)

/-- One entry of the publishing manifest (gitbook-config.json `structure`). -/
structure ManifestItem where
  title : String
  file : String
  source : String
deriving DecidableEq, Repr

/-- The publishing-target configuration (config/gitbook-config.json). -/
structure GitBookConfig where
  title : String
  structure' : List ManifestItem
  readmeContent : String
deriving DecidableEq, Repr

/-- Array.prototype.join with a separator, as used on the mapped manifest. -/
def joinWith (sep : String) : List String → String
  | [] => ""
  | [a] => a
  | a :: b :: rest => a ++ sep ++ joinWith sep (b :: rest)

/-- generateReadme: the synthesized README.md, including the
`*Last updated: <current date>*` line taken from the clock, not the inputs. -/
def generateReadme (cfg : GitBookConfig) (today : String) : String :=
  "# " ++ cfg.title ++ "\n\n" ++ cfg.readmeContent ++ "\n\n## Table of Contents\n\n"
    ++ joinWith "\n" (cfg.structure'.map (fun i => "- [" ++ i.title ++ "](" ++ i.file ++ ")"))
    ++ "\n\n---\n\n*Last updated: " ++ today ++ "*\n"

/-- generateSummary: the synthesized SUMMARY.md table of contents. -/
def generateSummary (cfg : GitBookConfig) : String :=
  "# Table of contents\n\n* [Introduction](README.md)\n\n"
    ++ joinWith "\n" (cfg.structure'.map (fun i => "* [" ++ i.title ++ "](" ++ i.file ++ ")"))
    ++ "\n"

/-- The source directory a manifest entry is copied from:
the JavaScript conditional that maps the shared category to the shared directory and every other category to the gitbook directory. -/
def copyDirOf (source : String) : String :=
  if source == "shared" then "shared" else "gitbook"

/-- copySourceFiles: each manifest entry whose file exists in its directory is
copied verbatim; a missing file is skipped (with only a warning logged). -/
def copyWrites (cfg : GitBookConfig) (src : SourceTree) : List (String × String) :=
  cfg.structure'.filterMap
    (fun item =>
      (List.lookup item.file (dirFiles src (copyDirOf item.source))).map
        (fun c => (item.file, c)))

/-- copyAssets: the gitbook/assets subtree is copied to assets/ and the
shared/images subtree to images/, when present. -/
def assetWrites (src : SourceTree) : List (String × String) :=
  (dirFiles src "gitbook/assets").map (fun f => ("assets/" ++ f.1, f.2))
    ++ (dirFiles src "shared/images").map (fun f => ("images/" ++ f.1, f.2))

/-- The ordered writes performed by buildGitBook after clearing the directory:
README.md, SUMMARY.md, the manifest copies, then assets. -/
def gitbookWrites (cfg : GitBookConfig) (src : SourceTree) (today : String) :
    List (String × String) :=
  ("README.md", generateReadme cfg today) :: ("SUMMARY.md", generateSummary cfg)
    :: (copyWrites cfg src ++ assetWrites src)

/-- buildGitBook (build-gitbook.js): ensureDir, emptyDir, then the four phases. -/
def buildGitBookTree (prev : Tree) (cfg : GitBookConfig) (src : SourceTree)
    (today : String) : Tree :=
  writeAll (emptyDir prev) (gitbookWrites cfg src today)

/-! ### Debounced rebuild trigger (file-watcher.js) -/

/-- State of the watcher process: the absolute deadline of the debounce timer
(buildTimeout), the completion time of an in-flight build (isBuilding), and the
absolute times at which build invocations were started. -/
structure WatchState where
  pending : Option Nat
  buildingUntil : Option Nat
  starts : List Nat
deriving DecidableEq, Repr

/-- The idle initial state of the watcher. -/
def watchInit : WatchState := ⟨none, none, []⟩

/-- The debounce quiet period: `setTimeout(..., 2000)`. -/
def quietMs : Nat := 2000

/-- Fire the callbacks that are due by time t: a due timer starts a build of
duration D (recording the invocation) and a build whose completion time has
been reached runs its close handler, clearing isBuilding.  A timer and an
in-flight build never coexist in reachable states, since triggerBuild only
arms the timer when isBuilding is false. -/
def settle (D : Nat) (s : WatchState) (t : Nat) : WatchState :=
  match s.pending with
  | some d =>
      if d ≤ t then
        if d + D ≤ t then ⟨none, none, s.starts ++ [d]⟩
        else ⟨none, some (d + D), s.starts ++ [d]⟩
      else s
  | none =>
      match s.buildingUntil with
      | some b => if b ≤ t then ⟨none, none, s.starts⟩ else s
      | none => s

/-- triggerBuild on a qualifying filesystem event at time t: after the due
callbacks have run, if a build is in flight the event is dropped
(`Build already in progress, skipping...`); otherwise clearTimeout plus
setTimeout restarts the quiet-period timer. -/
def onEvent (D : Nat) (s : WatchState) (t : Nat) : WatchState :=
  let s' := settle D s t
  if s'.buildingUntil.isSome then s'
  else ⟨some (t + quietMs), s'.buildingUntil, s'.starts⟩

/-- Process a chronological list of qualifying event times. -/
def runEvents (D : Nat) (s : WatchState) (ts : List Nat) : WatchState :=
  ts.foldl (onEvent D) s

/-- Let the process run to quiescence after the last event: a still-pending
timer fires (starting and finishing one more build) and an in-flight build
completes. -/
def flushState (s : WatchState) : WatchState :=
  match s.pending with
  | some d => ⟨none, none, s.starts ++ [d]⟩
  | none => ⟨none, none, s.starts⟩

/-- The build invocations (start times) produced by a chronological trace of
qualifying events when every build takes D to complete. -/
def buildStarts (ts : List Nat) (D : Nat) : List Nat :=
  (flushState (runEvents D watchInit ts)).starts

/-- Two consecutive event times within one quiet period: chronological order
with the second arriving strictly before the timer of the first fires. -/
def withinQuiet (a b : Nat) : Prop :=
  a ≤ b ∧ b < a + quietMs

/-! ### Staleness detector (the MCP build hook shell script) -/

/-- A tree of files with modification timestamps, as seen by `find`. -/
abbrev StatListing := List (String × Nat)

/-- The newest modification timestamp among the `*.md` files of a listing
(`find -name "*.md" | sort -n | tail -1`), none when there is no such file. -/
def mdMax (files : StatListing) : Option Nat :=
  ((files.filter (fun f => strEndsWith f.1 ".md")).map (fun f => f.2)).max?

/-- The SOURCE_NEWER computation of the hook script: both directory-existence
guards must pass, then the newest source file must be strictly newer (`-nt`)
than the newest build file, or some source file must exist while no build file
does.  A missing directory (none) leaves SOURCE_NEWER false. -/
def sourceNewer (src out : Option StatListing) : Bool :=
  match src, out with
  | some s, some o =>
      match mdMax s, mdMax o with
      | some ms, some mo => decide (mo < ms)
      | some _, none => true
      | none, _ => false
  | _, _ => false

/-- The rebuild decision: `[ "$SOURCE_NEWER" = true ] || [ "$1" = "--force" ]`. -/
def checkStale (src out : Option StatListing) (force : Bool) : Bool :=
  sourceNewer src out || force

/-! ### Spec-side definitions, for comparing the code against the claims -/

/-- Modelled from the spec: stale exactly when the maximum source markdown
timestamp strictly exceeds the maximum output markdown timestamp, or the
output tree has no markdown file while the source tree has at least one;
the force flag reports stale regardless. -/
def specStale (srcFiles outFiles : StatListing) (force : Bool) : Bool :=
  force ||
    (match mdMax srcFiles, mdMax outFiles with
     | some ms, some mo => decide (mo < ms)
     | some _, none => true
     | none, _ => false)

/-- Modelled from the spec: the target-B-only category as the claim states it,
the `*.md` files directly in `source-root/mcp-only`. -/
def specMcpOnlyCategory (src : SourceTree) : DirListing :=
  mdFilesIn src "mcp-only"

/-- Modelled from the spec: the target-A-only category as the claim states it,
the `*.md` files directly in `source-root/gitbook-only`. -/
def specGitbookOnlyCategory (src : SourceTree) : DirListing :=
  mdFilesIn src "gitbook-only"

/-- Modelled from the spec: the per-file output layout the claim asserts for
the metadata target, a delimited header block followed by a blank line and
then the original content. -/
def specHeaderThenBlankLine (m : Metadata) (content : String) : String :=
  "---\n" ++ yamlDump m ++ "---\n" ++ "\n" ++ content

/-! ### Concrete fixtures used to instantiate the theorems -/

/-- A metadata configuration with no specific templates and the example
default record of mcp-config.json. -/
def mcpCfgDefault : MCPConfig :=
  ⟨[], [("description", MetaVal.str "general")]⟩

/-- A metadata configuration with one specific template under key mcp/b.md. -/
def mcpCfgEx : MCPConfig :=
  ⟨[("mcp/b.md", [("description", MetaVal.str "B docs"), ("alwaysApply", MetaVal.bool true)])],
   [("description", MetaVal.str "general")]⟩

/-- A source tree with a single shared markdown file. -/
def srcSharedEx : SourceTree := [("shared", [("t.md", "# T\n")])]

/-- A source tree where t.md exists both in shared and in mcp. -/
def srcEx : SourceTree :=
  [("shared", [("t.md", "# T\n")]), ("mcp", [("b.md", "# B\n"), ("t.md", "MCP\n")])]

/-- A source tree whose markdown lives in mcp-only and gitbook-only
subdirectories, with the mcp and gitbook subdirectories empty. -/
def srcMcpOnlyEx : SourceTree :=
  [("mcp-only", [("a.md", "# A\n")]), ("gitbook-only", [("g.md", "# G\n")]),
   ("mcp", []), ("gitbook", [])]

/-- A publishing configuration with one resolvable entry and one entry whose
source file is missing. -/
def gbCfgEx : GitBookConfig :=
  ⟨"T", [⟨"A", "a.md", "shared"⟩, ⟨"M", "missing.md", "gitbook"⟩], "R"⟩

/-- A publishing configuration with a single gitbook-category entry. -/
def gbCfg4 : GitBookConfig := ⟨"T", [⟨"G", "g.md", "gitbook"⟩], "R"⟩

/-- A publishing source tree where a.md exists in shared and the gitbook
directory is empty. -/
def gbSrcEx : SourceTree := [("shared", [("a.md", "Alpha\n")]), ("gitbook", [])]

/-- A source tree whose mcp file carries its own front-matter block. -/
def srcFMEx : SourceTree := [("mcp", [("f.md", "---\nfoo: x\n---\nBody\n")])]

/-- A source tree where markdown-rules.md exists both in shared and in mcp. -/
def srcRulesEx : SourceTree :=
  [("shared", [("markdown-rules.md", "SHARED RULES\n")]),
   ("mcp", [("markdown-rules.md", "MCP RULES\n")])]

/-! ### Helper lemmas about trees, lookups and joins -/

theorem lookup_filter_ne (t : Tree) (p q : String) (h : p ≠ q) :
    List.lookup p (t.filter (fun e => e.1 != q)) = List.lookup p t := by
  induction t with
  | nil => rfl
  | cons e t ih =>
    obtain ⟨k, v⟩ := e
    by_cases hkq : k = q
    · subst hkq
      have hpk : (p == k) = false := beq_eq_false_iff_ne.mpr h
      simp [List.filter_cons, List.lookup_cons, hpk, ih]
    · have hk : ((k, v).1 != q) = true := bne_iff_ne.mpr hkq
      simp only [List.filter_cons, hk, if_true]
      rw [List.lookup_cons, List.lookup_cons]
      cases hpk : p == k
      · exact ih
      · rfl

theorem treeGet_writeFile (t : Tree) (p q c : String) :
    treeGet (writeFile t q c) p = if p = q then some c else treeGet t p := by
  unfold treeGet writeFile
  rw [List.lookup_cons]
  by_cases hpq : p = q
  · simp [hpq]
  · have h1 : (p == q) = false := beq_eq_false_iff_ne.mpr hpq
    simp only [h1, if_neg hpq]
    exact lookup_filter_ne t p q hpq

theorem lookup_append (p : String) (l1 l2 : List (String × String)) :
    List.lookup p (l1 ++ l2)
      = match List.lookup p l1 with
        | some v => some v
        | none => List.lookup p l2 := by
  induction l1 with
  | nil => rfl
  | cons e l1 ih =>
    obtain ⟨k, v⟩ := e
    rw [List.cons_append, List.lookup_cons, List.lookup_cons]
    cases hpk : p == k
    · exact ih
    · rfl

theorem treeGet_writeAll (ws : List (String × String)) :
    ∀ (t : Tree) (p : String),
      treeGet (writeAll t ws) p
        = match List.lookup p ws.reverse with
          | some v => some v
          | none => treeGet t p := by
  induction ws with
  | nil => intro t p; rfl
  | cons w ws ih =>
    intro t p
    obtain ⟨q, c⟩ := w
    have h1 : writeAll t ((q, c) :: ws) = writeAll (writeFile t q c) ws := rfl
    rw [h1, ih (writeFile t q c) p, List.reverse_cons, lookup_append]
    cases hws : List.lookup p ws.reverse
    · rw [treeGet_writeFile, List.lookup_cons]
      by_cases hpq : p = q
      · simp [hpq]
      · have h2 : (p == q) = false := beq_eq_false_iff_ne.mpr hpq
        simp [h2, hpq]
    · rfl

theorem treeGet_writeAll_not_mem (ws : List (String × String)) (p : String)
    (h : p ∉ ws.map Prod.fst) : treeGet (writeAll [] ws) p = none := by
  rw [treeGet_writeAll]
  have hl : List.lookup p ws.reverse = none := by
    induction ws with
    | nil => rfl
    | cons w ws ih =>
      obtain ⟨k, v⟩ := w
      have hpk : p ≠ k := by
        intro heq; exact h (by simp [heq])
      have hmem : p ∉ ws.map Prod.fst := by
        intro hm; exact h (by simp [hm])
      rw [List.reverse_cons, lookup_append, ih hmem]
      simp [List.lookup_cons, beq_eq_false_iff_ne.mpr hpk]
  rw [hl]
  rfl

theorem lookup_of_mem_nodup :
    ∀ (l : List (String × String)) (p v : String),
      (p, v) ∈ l → (l.map Prod.fst).Nodup → List.lookup p l = some v := by
  intro l
  induction l with
  | nil => intro p v h; cases h
  | cons e t ih =>
    intro p v hmem hnd
    obtain ⟨k, w⟩ := e
    rcases List.mem_cons.mp hmem with heq | htl
    · obtain ⟨rfl, rfl⟩ := Prod.mk.injEq _ _ _ _ ▸ heq
      simp [List.lookup_cons]
    · rw [List.map_cons] at hnd
      have hpk : p ≠ k := by
        intro h; subst h
        have hmap : p ∈ t.map Prod.fst := List.mem_map.mpr ⟨(p, v), htl, rfl⟩
        exact (List.nodup_cons.mp hnd).1 hmap
      rw [List.lookup_cons]
      have h1 : (p == k) = false := beq_eq_false_iff_ne.mpr hpk
      simp only [h1]
      exact ih p v htl (List.nodup_cons.mp hnd).2

theorem joinWith_infix {α : Type} (sep : String) (f : α → String) :
    ∀ (l : List α) (x : α), x ∈ l →
      ∃ a b, joinWith sep (l.map f) = a ++ f x ++ b := by
  intro l
  induction l with
  | nil => intro x h; cases h
  | cons y l ih =>
    intro x hmem
    cases l with
    | nil =>
      have hx : x = y := by
        rcases List.mem_cons.mp hmem with h | h
        · exact h
        · cases h
      refine ⟨"", "", ?_⟩
      simp [hx, joinWith]
    | cons z zs =>
      rcases List.mem_cons.mp hmem with hx | hx
      · refine ⟨"", sep ++ joinWith sep ((z :: zs).map f), ?_⟩
        subst hx
        show joinWith sep (f x :: (z :: zs).map f) = "" ++ f x ++ (sep ++ joinWith sep ((z :: zs).map f))
        rw [List.map_cons, joinWith]
        simp [String.append_assoc]
      · obtain ⟨a, b, hab⟩ := ih x hx
        refine ⟨f y ++ sep ++ a, b, ?_⟩
        show joinWith sep (f y :: (z :: zs).map f) = f y ++ sep ++ a ++ f x ++ b
        rw [List.map_cons, joinWith]
        rw [List.map_cons] at hab
        rw [hab]
        simp [String.append_assoc]

theorem ensureNl_of_endsWith (content : String) (h : strEndsWith content "\n" = true) :
    ensureNl content = content := by
  simp [ensureNl, h]

theorem assignMerge_nil (m : Metadata) : assignMerge [] m = m := by
  unfold assignMerge
  simp only [List.map_nil, List.nil_append]
  induction m with
  | nil => rfl
  | cons kv t ih => simp [List.filter_cons, List.lookup, ih]

theorem splitFrontMatter_not_delim (content : String)
    (h : startsWithFMDelim content = false) :
    splitFrontMatter content = ([], content) := by
  unfold startsWithFMDelim at h
  unfold splitFrontMatter
  cases hs : splitOnNl content.data with
  | nil => rfl
  | cons first rest =>
    rw [hs] at h
    have h' : (first == dashes) = false := h
    simp [h']

theorem matterStringify_no_delim (content : String) (m : Metadata)
    (h : startsWithFMDelim content = false) (hm : m.isEmpty = false) :
    matterStringify content m = "---\n" ++ yamlDump m ++ "---\n" ++ ensureNl content := by
  unfold matterStringify
  rw [splitFrontMatter_not_delim content h]
  simp [assignMerge_nil, hm]

/-! ### Helper lemmas about the watcher state machine -/

theorem onEvent_idle (D t : Nat) (st : List Nat) :
    onEvent D ⟨none, none, st⟩ t = ⟨some (t + quietMs), none, st⟩ := rfl

theorem onEvent_init (D t : Nat) :
    onEvent D watchInit t = ⟨some (t + quietMs), none, []⟩ := rfl

theorem onEvent_fire_and_finish (D dl t : Nat) (st : List Nat)
    (h1 : dl ≤ t) (h2 : dl + D ≤ t) :
    onEvent D ⟨some dl, none, st⟩ t = ⟨some (t + quietMs), none, st ++ [dl]⟩ := by
  unfold onEvent settle
  simp [h1, h2]

theorem onEvent_fire_still_building (D dl t : Nat) (st : List Nat)
    (h1 : dl ≤ t) (h2 : ¬ (dl + D ≤ t)) :
    onEvent D ⟨some dl, none, st⟩ t = ⟨none, some (dl + D), st ++ [dl]⟩ := by
  unfold onEvent settle
  simp [h1, h2]

theorem onEvent_while_pending (D dl t : Nat) (st : List Nat) (h : t < dl) :
    onEvent D ⟨some dl, none, st⟩ t = ⟨some (t + quietMs), none, st⟩ := by
  have hnot : ¬ dl ≤ t := by omega
  simp [onEvent, settle, hnot]

theorem burst_run (D : Nat) (st : List Nat) :
    ∀ (ts : List Nat) (t : Nat), List.Chain' withinQuiet (t :: ts) →
      runEvents D ⟨some (t + quietMs), none, st⟩ ts
        = ⟨some (ts.getLastD t + quietMs), none, st⟩ := by
  intro ts
  induction ts with
  | nil => intro t _; rfl
  | cons u ts ih =>
    intro t hch
    have h1 : withinQuiet t u := (List.chain'_cons.mp hch).1
    have h2 := (List.chain'_cons.mp hch).2
    have hstep : runEvents D ⟨some (t + quietMs), none, st⟩ (u :: ts)
        = runEvents D (onEvent D ⟨some (t + quietMs), none, st⟩ u) ts := rfl
    rw [hstep, onEvent_while_pending D (t + quietMs) u st h1.2, List.getLastD_cons]
    exact ih u h2

theorem processSharedFiles_map_fst (cfg : MCPConfig) (src : SourceTree) :
    (processSharedFiles cfg src).map Prod.fst = (mdFilesIn src "shared").map Prod.fst := by
  unfold processSharedFiles
  rw [List.map_map]
  rfl

theorem processMCPOnlyFiles_map_fst (cfg : MCPConfig) (src : SourceTree) :
    (processMCPOnlyFiles cfg src).map Prod.fst = (mdFilesIn src "mcp").map Prod.fst := by
  unfold processMCPOnlyFiles
  rw [List.map_map]
  rfl

theorem treeGet_writeAll_head_ne (p q c c' : String) (rest : List (String × String))
    (hp : p ≠ q) :
    treeGet (writeAll [] ((q, c) :: rest)) p = treeGet (writeAll [] ((q, c') :: rest)) p := by
  show treeGet (writeAll (writeFile [] q c) rest) p
      = treeGet (writeAll (writeFile [] q c') rest) p
  rw [treeGet_writeAll, treeGet_writeAll]
  cases h : List.lookup p rest.reverse with
  | some v => rfl
  | none =>
    show treeGet (writeFile [] q c) p = treeGet (writeFile [] q c') p
    rw [treeGet_writeFile, treeGet_writeFile, if_neg hp, if_neg hp]

/-! ### Claim theorems -/

/-- Claim C7: for every burst of N ≥ 1 qualifying events, each arriving within
the 2-second quiet period of the previous one, exactly one build invocation
results, fired on the trailing edge (last event time plus the quiet period);
a further qualifying event arriving once the trigger is idle again produces
exactly one additional invocation, and no more. -/
theorem claim7_debounce_coalesces (D u t0 : Nat) (ts : List Nat)
    (hch : List.Chain' withinQuiet (t0 :: ts))
    (hu : ts.getLastD t0 + quietMs + D ≤ u) :
    buildStarts (t0 :: ts) D = [ts.getLastD t0 + quietMs] ∧
    buildStarts ((t0 :: ts) ++ [u]) D = [ts.getLastD t0 + quietMs, u + quietMs] := by
  have hrun : runEvents D watchInit (t0 :: ts)
      = ⟨some (ts.getLastD t0 + quietMs), none, []⟩ := by
    have h0 : runEvents D watchInit (t0 :: ts)
        = runEvents D (onEvent D watchInit t0) ts := rfl
    rw [h0, onEvent_init]
    exact burst_run D [] ts t0 hch
  refine ⟨?_, ?_⟩
  · unfold buildStarts
    rw [hrun]
    rfl
  · unfold buildStarts
    have hap : runEvents D watchInit ((t0 :: ts) ++ [u])
        = onEvent D (runEvents D watchInit (t0 :: ts)) u := by
      unfold runEvents
      rw [List.foldl_append]
      rfl
    rw [hap, hrun]
    have h1 : ts.getLastD t0 + quietMs ≤ u := by omega
    rw [onEvent_fire_and_finish D (ts.getLastD t0 + quietMs) u [] h1 hu]
    rfl

/-- Claim C7 witness: a single event at time 0 fires one build at 2000 ms, and
a second event at 3000 ms (after the quiet period and the 1000 ms build)
produces exactly one more invocation at 5000 ms. -/
theorem claim7_witness :
    buildStarts [0] 1000 = [2000] ∧ buildStarts ([0] ++ [3000]) 1000 = [2000, 5000] :=
  claim7_debounce_coalesces 1000 3000 0 [] (by simp) (by decide)

/-- Claim C2 counterexample: an event at time 0 arms the timer, the build fires
at 2000 ms and runs until 12000 ms; a qualifying event at 5000 ms arrives while
Building, yet only one build invocation ever starts and no Pending timer exists
after the trace, so the event is silently lost, contrary to the claim that a
fresh Pending timer is re-armed once Building returns to Idle. -/
theorem claim2_counterexample :
    (buildStarts [0, 5000] 10000).length = 1 ∧
    (runEvents 10000 watchInit [0, 5000]).pending = none := by decide

/-- Claim C2 as amended: a qualifying event that arrives while a build is in
flight is dropped (only a skip message is logged); no Pending timer is re-armed
when the build completes, so a further build requires a new qualifying event. -/
theorem claim2_event_during_build_dropped (t0 e D : Nat)
    (h1 : t0 + quietMs ≤ e) (h2 : e < t0 + quietMs + D) :
    buildStarts [t0, e] D = [t0 + quietMs] ∧
    (runEvents D watchInit [t0, e]).pending = none := by
  have hrun : runEvents D watchInit [t0, e]
      = ⟨none, some (t0 + quietMs + D), [t0 + quietMs]⟩ := by
    have h0 : runEvents D watchInit [t0, e] = onEvent D (onEvent D watchInit t0) e := rfl
    rw [h0, onEvent_init]
    have hn : ¬ (t0 + quietMs + D ≤ e) := by omega
    rw [onEvent_fire_still_building D (t0 + quietMs) e [] h1 hn]
    rfl
  unfold buildStarts
  rw [hrun]
  exact ⟨rfl, rfl⟩

/-- Claim C2 amended witness: the dropped-event behavior at the concrete trace
with events at 0 ms and 5000 ms and a 10000 ms build. -/
theorem claim2_amended_witness :
    buildStarts [0, 5000] 10000 = [2000] ∧
    (runEvents 10000 watchInit [0, 5000]).pending = none :=
  claim2_event_during_build_dropped 0 5000 10000 (by decide) (by decide)

/-- Claim C5 counterexample: with one source markdown file and a missing
output directory the hook script reports fresh (its directory-existence guard
leaves SOURCE_NEWER false), while the claimed rule - output tree containing no
markdown while the source tree has some - reports stale. -/
theorem claim5_counterexample :
    checkStale (some [("a.md", 5)]) none false = false ∧
    specStale [("a.md", 5)] [] false = true := by decide

/-- Claim C5 as amended: when both the source and output directories exist the
detector reports stale exactly when the maximum source markdown timestamp
strictly exceeds the maximum output markdown timestamp, or the output has no
markdown file while the source has at least one, or the force flag is passed;
when either directory is missing the comparison is skipped and the result is
stale exactly when the force flag is passed. -/
theorem claim5_stale_iff (s o : StatListing) (x : Option StatListing) (force : Bool) :
    checkStale (some s) (some o) force = specStale s o force ∧
    checkStale none x force = force ∧
    checkStale x none force = force := by
  refine ⟨?_, ?_, ?_⟩
  · cases hms : mdMax s <;> cases hmo : mdMax o <;>
      simp [checkStale, specStale, sourceNewer, hms, hmo, Bool.or_comm]
  · cases x <;> simp [checkStale, sourceNewer]
  · cases x <;> simp [checkStale, sourceNewer]

/-- Claim C4 counterexample: in a source root whose markdown lives in the
mcp-only and gitbook-only subdirectories, the metadata emitter processes
nothing (it enumerates the mcp subdirectory) and the publishing emitter copies
nothing for a gitbook-category manifest entry (it resolves against the gitbook
subdirectory), although the categories claimed from mcp-only and gitbook-only
are nonempty. -/
theorem claim4_counterexample :
    (processMCPOnlyFiles mcpCfgDefault srcMcpOnlyEx).map Prod.fst = [] ∧
    (specMcpOnlyCategory srcMcpOnlyEx).map Prod.fst = ["a.md"] ∧
    copyWrites gbCfg4 srcMcpOnlyEx = [] ∧
    (specGitbookOnlyCategory srcMcpOnlyEx).map Prod.fst = ["g.md"] := by decide

/-- Claim C4 as amended: the metadata emitter reads the shared category from
source-root/shared and the target-B-only category from source-root/mcp, and
the publishing emitter resolves a manifest entry from source-root/shared when
its category is shared and from source-root/gitbook otherwise; no emitter
reads a gitbook-only or mcp-only subdirectory. -/
theorem claim4_categories_from_dirs (mcfg : MCPConfig) (gcfg : GitBookConfig)
    (src : SourceTree) (item : ManifestItem) (c : String) :
    (processMCPOnlyFiles mcfg src).map Prod.fst = (mdFilesIn src "mcp").map Prod.fst ∧
    (processSharedFiles mcfg src).map Prod.fst = (mdFilesIn src "shared").map Prod.fst ∧
    (item ∈ gcfg.structure' →
      List.lookup item.file (dirFiles src (copyDirOf item.source)) = some c →
      (item.file, c) ∈ copyWrites gcfg src) := by
  refine ⟨processMCPOnlyFiles_map_fst mcfg src, processSharedFiles_map_fst mcfg src,
    fun hmem hlk => ?_⟩
  exact List.mem_filterMap.mpr ⟨item, hmem, by rw [hlk]; rfl⟩

/-- Claim C4 amended witness: the shared-category entry a.md of the example
manifest is copied from the shared directory. -/
theorem claim4_witness :
    (processMCPOnlyFiles mcpCfgDefault gbSrcEx).map Prod.fst
      = (mdFilesIn gbSrcEx "mcp").map Prod.fst ∧
    (processSharedFiles mcpCfgDefault gbSrcEx).map Prod.fst
      = (mdFilesIn gbSrcEx "shared").map Prod.fst ∧
    ("a.md", "Alpha\n") ∈ copyWrites gbCfgEx gbSrcEx :=
  ⟨(claim4_categories_from_dirs mcpCfgDefault gbCfgEx gbSrcEx ⟨"A", "a.md", "shared"⟩ "Alpha\n").1,
   (claim4_categories_from_dirs mcpCfgDefault gbCfgEx gbSrcEx ⟨"A", "a.md", "shared"⟩ "Alpha\n").2.1,
   (claim4_categories_from_dirs mcpCfgDefault gbCfgEx gbSrcEx ⟨"A", "a.md", "shared"⟩ "Alpha\n").2.2
     (by decide) (by decide)⟩

/-- Claim C6 counterexample: a source file in the mcp directory that carries
its own front-matter block (key foo) has that block parsed and merged, so the
emitted header contains foo besides the resolved default template and does not
exactly match the template serialisation, and the body is the content with its
own block stripped. -/
theorem claim6_counterexample :
    List.lookup "f.md" (processMCPOnlyFiles mcpCfgDefault srcFMEx)
      = some "---\nfoo: x\ndescription: general\n---\nBody\n" ∧
    "---\nfoo: x\ndescription: general\n---\nBody\n"
      ≠ "---\n" ++ yamlDump (resolveFM mcpCfgDefault ("mcp/" ++ "f.md")) ++ "---\n"
          ++ "Body\n" := by decide

/-- Claim C6 as amended: frontmatter resolution returns the template map entry
for the key category/filename when present and the default record otherwise;
for a source file that does not itself begin with a front-matter block, the
emitted header is exactly the serialisation of the resolved record - the
specific template when an entry exists, the default template when none does
(a source carrying its own front-matter block instead has that block stripped
from the body and its keys merged beneath the resolved record). -/
theorem claim6_frontmatter_resolution (mcfg : MCPConfig) (src : SourceTree) :
    (∀ key md, List.lookup key mcfg.frontmatterTemplates = some md →
      resolveFM mcfg key = md) ∧
    (∀ key, List.lookup key mcfg.frontmatterTemplates = none →
      resolveFM mcfg key = mcfg.defaultFrontmatter) ∧
    (∀ name content md, (name, content) ∈ mdFilesIn src "mcp" →
      startsWithFMDelim content = false →
      List.lookup ("mcp/" ++ name) mcfg.frontmatterTemplates = some md → md ≠ [] →
      (name, "---\n" ++ yamlDump md ++ "---\n" ++ ensureNl content)
        ∈ processMCPOnlyFiles mcfg src) ∧
    (∀ name content, (name, content) ∈ mdFilesIn src "shared" →
      startsWithFMDelim content = false →
      List.lookup ("shared/" ++ name) mcfg.frontmatterTemplates = none →
      mcfg.defaultFrontmatter ≠ [] →
      (name, "---\n" ++ yamlDump mcfg.defaultFrontmatter ++ "---\n" ++ ensureNl content)
        ∈ processSharedFiles mcfg src) := by
  refine ⟨fun key md h => ?_, fun key h => ?_, fun name content md hmem hfm hlk hne => ?_,
    fun name content hmem hfm hlk hne => ?_⟩
  · simp [resolveFM, h]
  · simp [resolveFM, h]
  · have hie : md.isEmpty = false := by
      cases md with
      | nil => exact absurd rfl hne
      | cons a l => rfl
    refine List.mem_map.mpr ⟨(name, content), hmem, ?_⟩
    show (name, matterStringify content (resolveFM mcfg ("mcp/" ++ name)))
        = (name, "---\n" ++ yamlDump md ++ "---\n" ++ ensureNl content)
    have hres : resolveFM mcfg ("mcp/" ++ name) = md := by simp [resolveFM, hlk]
    rw [hres, matterStringify_no_delim content md hfm hie]
  · have hie : mcfg.defaultFrontmatter.isEmpty = false := by
      cases h : mcfg.defaultFrontmatter with
      | nil => exact absurd h hne
      | cons a l => rfl
    refine List.mem_map.mpr ⟨(name, content), hmem, ?_⟩
    show (name, matterStringify content (resolveFM mcfg ("shared/" ++ name)))
        = (name, "---\n" ++ yamlDump mcfg.defaultFrontmatter ++ "---\n" ++ ensureNl content)
    have hres : resolveFM mcfg ("shared/" ++ name) = mcfg.defaultFrontmatter := by
      simp [resolveFM, hlk]
    rw [hres, matterStringify_no_delim content mcfg.defaultFrontmatter hfm hie]

/-- Claim C6 amended witness: b.md receives exactly its specific template and
t.md exactly the default template in the example configuration. -/
theorem claim6_witness :
    resolveFM mcpCfgEx "mcp/b.md"
      = [("description", MetaVal.str "B docs"), ("alwaysApply", MetaVal.bool true)] ∧
    resolveFM mcpCfgEx "shared/t.md" = [("description", MetaVal.str "general")] ∧
    ("b.md", "---\n" ++ yamlDump [("description", MetaVal.str "B docs"),
        ("alwaysApply", MetaVal.bool true)] ++ "---\n" ++ ensureNl "# B\n")
      ∈ processMCPOnlyFiles mcpCfgEx srcEx ∧
    ("t.md", "---\n" ++ yamlDump [("description", MetaVal.str "general")]
        ++ "---\n" ++ ensureNl "# T\n")
      ∈ processSharedFiles mcpCfgEx srcEx :=
  ⟨(claim6_frontmatter_resolution mcpCfgEx srcEx).1 "mcp/b.md" _ (by decide),
   (claim6_frontmatter_resolution mcpCfgEx srcEx).2.1 "shared/t.md" (by decide),
   (claim6_frontmatter_resolution mcpCfgEx srcEx).2.2.1 "b.md" "# B\n" _
     (by decide) (by decide) (by decide) (by decide),
   (claim6_frontmatter_resolution mcpCfgEx srcEx).2.2.2 "t.md" "# T\n"
     (by decide) (by decide) (by decide) (by decide)⟩

/-- Claim C3 counterexample: the file emitted for shared/t.md is the header
block immediately followed by the content; it differs from the claimed layout
with a blank line between the header block and the content. -/
theorem claim3_counterexample :
    List.lookup "t.md" (processSharedFiles mcpCfgDefault srcSharedEx)
      = some "---\ndescription: general\n---\n# T\n" ∧
    "---\ndescription: general\n---\n# T\n"
      ≠ specHeaderThenBlankLine [("description", MetaVal.str "general")] "# T\n" := by
  decide

/-- Claim C3 as amended: for every markdown source file processed by the
metadata-target emitter whose content does not itself begin with a
front-matter block, the emitted file is the delimited key-value header block
immediately followed by the original content with no intervening blank line;
the content is preserved byte-for-byte whenever it ends with a newline (one is
appended otherwise), assuming the resolved metadata record is nonempty (a
source beginning with its own front-matter block instead has that block
stripped from the body and its keys merged beneath the resolved record). -/
theorem claim3_header_then_content (mcfg : MCPConfig) (src : SourceTree)
    (name content : String) :
    ((name, content) ∈ mdFilesIn src "shared" → startsWithFMDelim content = false →
      strEndsWith content "\n" = true →
      resolveFM mcfg ("shared/" ++ name) ≠ [] →
      (name, "---\n" ++ yamlDump (resolveFM mcfg ("shared/" ++ name)) ++ "---\n" ++ content)
        ∈ processSharedFiles mcfg src) ∧
    ((name, content) ∈ mdFilesIn src "mcp" → startsWithFMDelim content = false →
      strEndsWith content "\n" = true →
      resolveFM mcfg ("mcp/" ++ name) ≠ [] →
      (name, "---\n" ++ yamlDump (resolveFM mcfg ("mcp/" ++ name)) ++ "---\n" ++ content)
        ∈ processMCPOnlyFiles mcfg src) := by
  constructor
  · intro hmem hfm hnl hne
    have hie : (resolveFM mcfg ("shared/" ++ name)).isEmpty = false := by
      cases h : resolveFM mcfg ("shared/" ++ name) with
      | nil => exact absurd h hne
      | cons a l => rfl
    refine List.mem_map.mpr ⟨(name, content), hmem, ?_⟩
    show (name, matterStringify content (resolveFM mcfg ("shared/" ++ name)))
        = (name, "---\n" ++ yamlDump (resolveFM mcfg ("shared/" ++ name)) ++ "---\n" ++ content)
    rw [matterStringify_no_delim content _ hfm hie, ensureNl_of_endsWith content hnl]
  · intro hmem hfm hnl hne
    have hie : (resolveFM mcfg ("mcp/" ++ name)).isEmpty = false := by
      cases h : resolveFM mcfg ("mcp/" ++ name) with
      | nil => exact absurd h hne
      | cons a l => rfl
    refine List.mem_map.mpr ⟨(name, content), hmem, ?_⟩
    show (name, matterStringify content (resolveFM mcfg ("mcp/" ++ name)))
        = (name, "---\n" ++ yamlDump (resolveFM mcfg ("mcp/" ++ name)) ++ "---\n" ++ content)
    rw [matterStringify_no_delim content _ hfm hie, ensureNl_of_endsWith content hnl]

/-- Claim C3 amended witness: the header-then-content layout at the concrete
shared file t.md and the concrete mcp file b.md of the example source tree. -/
theorem claim3_witness :
    ("t.md", "---\n" ++ yamlDump (resolveFM mcpCfgDefault "shared/t.md") ++ "---\n" ++ "# T\n")
      ∈ processSharedFiles mcpCfgDefault srcEx ∧
    ("b.md", "---\n" ++ yamlDump (resolveFM mcpCfgDefault "mcp/b.md") ++ "---\n" ++ "# B\n")
      ∈ processMCPOnlyFiles mcpCfgDefault srcEx :=
  ⟨(claim3_header_then_content mcpCfgDefault srcEx "t.md" "# T\n").1
     (by decide) (by decide) (by decide) (by decide),
   (claim3_header_then_content mcpCfgDefault srcEx "b.md" "# B\n").2
     (by decide) (by decide) (by decide) (by decide)⟩

/-- Claim C10 counterexample: for the filename markdown-rules.md present in
both the shared and the mcp directory, the final output at that path is the
static usage-instructions artifact - written by the third build phase after
both variants - and not the processed mcp variant the claim promises. -/
theorem claim10_counterexample :
    treeGet (buildMCPTree [] mcpCfgDefault srcRulesEx) "markdown-rules.md"
      = some usageInstructionsContent ∧
    treeGet (buildMCPTree [] mcpCfgDefault srcRulesEx) "markdown-rules.md"
      ≠ some (matterStringify "MCP RULES\n"
          (resolveFM mcpCfgDefault ("mcp/" ++ "markdown-rules.md"))) :=
  ⟨rfl, by decide⟩

/-- Claim C10 as amended: for every filename other than markdown-rules.md that
exists as a markdown file both in the shared directory and in the mcp
directory, both variants are written to the same output path, shared first and
mcp second, so the final output file holds the mcp variant with its resolved
frontmatter while the processed shared variant is emitted and then silently
overwritten; at markdown-rules.md the synthesized usage-instructions artifact
is written last and overwrites both variants. -/
theorem claim10_mcp_overwrites_shared (prev : Tree) (mcfg : MCPConfig) (src : SourceTree)
    (name cS cM : String)
    (hS : (name, cS) ∈ mdFilesIn src "shared")
    (hM : (name, cM) ∈ mdFilesIn src "mcp")
    (hnd : ((dirFiles src "mcp").map Prod.fst).Nodup)
    (hrules : name ≠ "markdown-rules.md") :
    treeGet (buildMCPTree prev mcfg src) name
      = some (matterStringify cM (resolveFM mcfg ("mcp/" ++ name))) ∧
    (name, matterStringify cS (resolveFM mcfg ("shared/" ++ name)))
      ∈ processSharedFiles mcfg src := by
  constructor
  · show treeGet (writeAll [] (mcpWrites mcfg src)) name = _
    rw [treeGet_writeAll]
    have hndm : ((processMCPOnlyFiles mcfg src).map Prod.fst).Nodup := by
      rw [processMCPOnlyFiles_map_fst]
      have hsub : ((mdFilesIn src "mcp").map Prod.fst).Sublist
          ((dirFiles src "mcp").map Prod.fst) :=
        List.Sublist.map Prod.fst (List.filter_sublist (dirFiles src "mcp"))
      exact List.Nodup.sublist hsub hnd
    have hmemM : (name, matterStringify cM (resolveFM mcfg ("mcp/" ++ name)))
        ∈ processMCPOnlyFiles mcfg src := List.mem_map.mpr ⟨(name, cM), hM, rfl⟩
    have hlkM : List.lookup name (processMCPOnlyFiles mcfg src).reverse
        = some (matterStringify cM (resolveFM mcfg ("mcp/" ++ name))) := by
      apply lookup_of_mem_nodup
      · exact List.mem_reverse.mpr hmemM
      · rw [List.map_reverse]
        exact List.nodup_reverse.mpr hndm
    unfold mcpWrites
    rw [List.reverse_append, List.reverse_append, List.reverse_singleton]
    rw [lookup_append]
    have hr : (name == "markdown-rules.md") = false := beq_eq_false_iff_ne.mpr hrules
    simp only [List.lookup_cons, hr, List.lookup_nil]
    rw [lookup_append, hlkM]
  · exact List.mem_map.mpr ⟨(name, cS), hS, rfl⟩

/-- Claim C10 witness: t.md exists in both shared and mcp in the example tree;
the final output at t.md is the processed mcp variant and the processed shared
variant was also emitted. -/
theorem claim10_witness :
    treeGet (buildMCPTree [] mcpCfgDefault srcEx) "t.md"
      = some (matterStringify "MCP\n" (resolveFM mcpCfgDefault ("mcp/" ++ "t.md"))) ∧
    ("t.md", matterStringify "# T\n" (resolveFM mcpCfgDefault ("shared/" ++ "t.md")))
      ∈ processSharedFiles mcpCfgDefault srcEx :=
  claim10_mcp_overwrites_shared [] mcpCfgDefault srcEx "t.md" "# T\n" "MCP\n"
    (by decide) (by decide) (by decide) (by decide)

/-- Claim C9: each emitter clears its entire output directory before writing,
so every path present beforehand that the current configuration and source set
do not produce is absent from the output tree after the run. -/
theorem claim9_clear_before_write (prev : Tree) (gcfg : GitBookConfig) (mcfg : MCPConfig)
    (src : SourceTree) (today p : String) :
    (p ∉ (gitbookWrites gcfg src today).map Prod.fst →
      treeGet (buildGitBookTree prev gcfg src today) p = none) ∧
    (p ∉ (mcpWrites mcfg src).map Prod.fst →
      treeGet (buildMCPTree prev mcfg src) p = none) :=
  ⟨fun h => treeGet_writeAll_not_mem _ p h, fun h => treeGet_writeAll_not_mem _ p h⟩

/-- Claim C9 witness: a leftover old.md in either output tree is absent after
rebuilding the example configurations. -/
theorem claim9_witness :
    treeGet (buildGitBookTree [("old.md", "stale")] gbCfgEx gbSrcEx "2025-08-03") "old.md"
      = none ∧
    treeGet (buildMCPTree [("old.md", "stale")] mcpCfgDefault srcEx) "old.md" = none :=
  ⟨(claim9_clear_before_write [("old.md", "stale")] gbCfgEx mcpCfgDefault gbSrcEx
      "2025-08-03" "old.md").1 (by decide),
   (claim9_clear_before_write [("old.md", "stale")] gbCfgEx mcpCfgDefault srcEx
      "2025-08-03" "old.md").2 (by decide)⟩

/-- Claim C8: a manifest entry whose source file is missing produces no copy
(the copy phase skips it, only warning), the build still completes as a total
function of its inputs, and the synthesized README.md and SUMMARY.md
nevertheless contain the entry title and link. -/
theorem claim8_missing_manifest_entry (gcfg : GitBookConfig) (src : SourceTree)
    (today : String) (item : ManifestItem)
    (hmem : item ∈ gcfg.structure')
    (hmiss : ∀ it ∈ gcfg.structure', it.file = item.file →
      List.lookup it.file (dirFiles src (copyDirOf it.source)) = none) :
    item.file ∉ (copyWrites gcfg src).map Prod.fst ∧
    (∃ a b, generateReadme gcfg today
      = a ++ ("- [" ++ item.title ++ "](" ++ item.file ++ ")") ++ b) ∧
    (∃ a b, generateSummary gcfg
      = a ++ ("* [" ++ item.title ++ "](" ++ item.file ++ ")") ++ b) := by
  refine ⟨?_, ?_, ?_⟩
  · intro hmemf
    obtain ⟨e, he, hfst⟩ := List.mem_map.mp hmemf
    obtain ⟨it, hit, hfit⟩ := List.mem_filterMap.mp he
    cases hlk : List.lookup it.file (dirFiles src (copyDirOf it.source)) with
    | none => rw [hlk] at hfit; cases hfit
    | some c =>
      rw [hlk] at hfit
      have he2 : e = (it.file, c) := by
        injection hfit with h
        exact h.symm
      have hfeq : it.file = item.file := by rw [he2] at hfst; exact hfst
      have hnone := hmiss it hit hfeq
      rw [hnone] at hlk
      cases hlk
  · obtain ⟨a, b, hab⟩ := joinWith_infix "\n"
      (fun i => "- [" ++ i.title ++ "](" ++ i.file ++ ")") gcfg.structure' item hmem
    refine ⟨"# " ++ gcfg.title ++ "\n\n" ++ gcfg.readmeContent ++ "\n\n## Table of Contents\n\n"
      ++ a, b ++ ("\n\n---\n\n*Last updated: " ++ today ++ "*\n"), ?_⟩
    unfold generateReadme
    rw [hab]
    simp [String.append_assoc]
  · obtain ⟨a, b, hab⟩ := joinWith_infix "\n"
      (fun i => "* [" ++ i.title ++ "](" ++ i.file ++ ")") gcfg.structure' item hmem
    refine ⟨"# Table of contents\n\n* [Introduction](README.md)\n\n" ++ a,
      b ++ "\n", ?_⟩
    unfold generateSummary
    rw [hab]
    simp [String.append_assoc]

/-- Claim C8 witness: the entry missing.md of the example manifest has no file
on disk; it is not copied, yet README.md and SUMMARY.md carry its title and
link. -/
theorem claim8_witness :
    "missing.md" ∉ (copyWrites gbCfgEx gbSrcEx).map Prod.fst ∧
    (∃ a b, generateReadme gbCfgEx "2025-08-03"
      = a ++ ("- [" ++ "M" ++ "](" ++ "missing.md" ++ ")") ++ b) ∧
    (∃ a b, generateSummary gbCfgEx
      = a ++ ("* [" ++ "M" ++ "](" ++ "missing.md" ++ ")") ++ b) :=
  claim8_missing_manifest_entry gbCfgEx gbSrcEx "2025-08-03" ⟨"M", "missing.md", "gitbook"⟩
    (by decide) (by decide)

/-- Claim C1 counterexample: with configuration and source files unchanged,
the publishing pipeline run on two different dates produces different output
trees, because the synthesized README.md embeds the current date; the output
is therefore not fully determined by (BuildConfiguration, SourceFile set). -/
theorem claim1_counterexample :
    buildGitBookTree [] gbCfgEx gbSrcEx "2025-08-03"
      ≠ buildGitBookTree [] gbCfgEx gbSrcEx "2025-08-04" := by decide

/-- Claim C1 as amended: the output trees are fully determined by
(BuildConfiguration, SourceFile set, current date) and are independent of any
previous output contents; the metadata target does not depend on the date at
all, and two publishing runs on different dates can differ only at README.md. -/
theorem claim1_deterministic_given_date (prev1 prev2 : Tree) (gcfg : GitBookConfig)
    (mcfg : MCPConfig) (src : SourceTree) (d d' : String) :
    buildMCPTree prev1 mcfg src = buildMCPTree prev2 mcfg src ∧
    buildGitBookTree prev1 gcfg src d = buildGitBookTree prev2 gcfg src d ∧
    (∀ p, p ≠ "README.md" →
      treeGet (buildGitBookTree prev1 gcfg src d) p
        = treeGet (buildGitBookTree prev2 gcfg src d') p) := by
  refine ⟨rfl, rfl, fun p hp => ?_⟩
  exact treeGet_writeAll_head_ne p "README.md" (generateReadme gcfg d)
    (generateReadme gcfg d')
    (("SUMMARY.md", generateSummary gcfg) :: (copyWrites gcfg src ++ assetWrites src)) hp

/-- Claim C1 amended witness: rerunning the metadata build ignores leftover
output, and the publishing outputs of two runs on different dates agree at
SUMMARY.md. -/
theorem claim1_witness :
    buildMCPTree [("old.md", "x")] mcpCfgDefault srcSharedEx
      = buildMCPTree [] mcpCfgDefault srcSharedEx ∧
    treeGet (buildGitBookTree [] gbCfgEx gbSrcEx "2025-08-03") "SUMMARY.md"
      = treeGet (buildGitBookTree [] gbCfgEx gbSrcEx "2025-08-04") "SUMMARY.md" :=
  ⟨(claim1_deterministic_given_date [("old.md", "x")] [] gbCfgEx mcpCfgDefault
      srcSharedEx "2025-08-03" "2025-08-03").1,
   (claim1_deterministic_given_date [] [] gbCfgEx mcpCfgDefault gbSrcEx
      "2025-08-03" "2025-08-04").2.2 "SUMMARY.md" (by decide)⟩

end DocsPipeline
